import Mathlib

/-!
Shallow embedding of the `shopify-forecast-assistant` server code.

The repository contains three closely related variants of the same
Express server:

* `src/server.js` — the clamping variant: `aggregateLineItems`,
  `buildForecastFromAggregates` (round, floor-to-1, clamp at 50,
  sort by `totalQty`, take top N), `buildCartUrl`, and the
  `POST /forecast` route.  Embedded in namespace `Server`.
* `src/unnamed/part_001` — the two-window variant:
  `aggregateLineItemsWithSeasonality` over separate recent/seasonal
  order lists, `buildForecast` (round, else 1, sort by `qty`, take
  top N).  Embedded in namespace `TwoWindow`.
* `src/unnamed/part_000` — the monthly-breakdown variant:
  `buildForecast` combining a rounded recurring quantity with the
  current month's seasonal quantity.  Embedded in namespace `Seasonal`.

JavaScript numbers are modelled exactly: integer quantities as `Nat`,
the one genuinely fractional computation (`totalQty / months` fed to
`Math.round`) as `Rat`.  `Math.round` rounds half toward positive
infinity, i.e. `⌊x + 1/2⌋`.  JavaScript objects used as string-keyed
maps are modelled as association lists in iteration order; JavaScript's
`Array.prototype.sort` is required to be stable since ES2019, and a
stable sort of a list by a total preorder is unique, so it is modelled
by Mathlib's stable `List.insertionSort`.
-/

namespace ShopifyForecast

/-- JS truthiness for an optional number (`undefined` and `0` are falsy). -/
def truthyN : Option Nat → Bool
  | some n => n != 0
  | none => false

/-- JS `a || b` on optional numbers: the value of `a` when truthy, else `b` as-is. -/
def jsOrN (a b : Option Nat) : Option Nat :=
  if truthyN a then a else b

/-- JS truthiness for an optional string (`undefined` and `""` are falsy). -/
def truthyS : Option String → Bool
  | some s => s != ""
  | none => false

/-- JS `a || d` for an optional string against a string default. -/
def jsStrOr (a : Option String) (d : String) : String :=
  match a with
  | some s => if s = "" then d else s
  | none => d

/-- JS `a || d` for an optional number against a number default (used for
`err.status || 500`). -/
def jsNatOr (a : Option Nat) (d : Nat) : Nat :=
  match a with
  | some n => if n = 0 then d else n
  | none => d

/-- A Shopify order line item as consumed by the aggregators: optional
`variant_id` / `product_id` (numeric Shopify identifiers), optional
`name` / `title`, optional `quantity`. -/
structure LineItem where
  variant_id : Option Nat
  product_id : Option Nat
  name : Option String
  title : Option String
  quantity : Option Nat
deriving DecidableEq, Repr

/-- A Shopify order: `created_month` is `new Date(o.created_at).getMonth()`,
the 0-indexed calendar month of the order's creation timestamp;
`line_items` is optional (null-ish orders are skipped / defaulted to `[]`). -/
structure Order where
  created_month : Nat
  line_items : Option (List LineItem)
deriving DecidableEq, Repr

/-- The line item's quantity contribution, `li.quantity || 0`. -/
def qtyOf (li : LineItem) : Nat := li.quantity.getD 0

/-- The title expression `li.name || li.title || ""` used when an aggregate
entry is first created. -/
def titleOf (li : LineItem) : String := jsStrOr li.name (jsStrOr li.title "")

/-- `String(li.variant_id || li.product_id)` as computed by the two
seasonality aggregators (no absent-id check): an absent result stringifies
to the literal key `"undefined"`. -/
def keyOfJs (li : LineItem) : String :=
  match jsOrN li.variant_id li.product_id with
  | none => "undefined"
  | some n => Nat.repr n

/-- The key used by `src/server.js`'s `aggregateLineItems`:
`const vid = li.variant_id || li.product_id; if (!vid) continue;
const id = String(vid);` — `none` means the line item is skipped. -/
def keyOfChecked (li : LineItem) : Option String :=
  match jsOrN li.variant_id li.product_id with
  | some (n + 1) => some (Nat.repr (n + 1))
  | _ => none

/-- `Math.round`: round half toward positive infinity. -/
def jsRound (x : Rat) : Int := ⌊x + 1/2⌋

/-- On a quotient of naturals, `Math.round` is round-half-up:
`round(t/m) = (2*t + m) / (2*m)` in natural division (both sides are `0`
when `m = 0`). -/
theorem jsRound_natCast_div (t m : ℕ) :
    jsRound ((t : ℚ) / (m : ℚ)) = (((2 * t + m) / (2 * m) : ℕ) : ℤ) := by
  unfold jsRound
  rcases Nat.eq_zero_or_pos m with hm | hm
  · subst hm
    norm_num
  · have h : (t : ℚ) / (m : ℚ) + 1 / 2 = ((2 * t + m : ℕ) : ℚ) / ((2 * m : ℕ) : ℚ) := by
      have hm' : (m : ℚ) ≠ 0 := Nat.cast_ne_zero.mpr hm.ne'
      push_cast
      field_simp
      ring
    rw [h, Rat.floor_natCast_div_natCast, Int.natCast_div]

namespace Server

/-- One entry of `src/server.js`'s aggregate map: `{ qty, title }`. -/
structure AggEntry where
  qty : Nat
  title : String
deriving DecidableEq, Repr

/-- The aggregate map of `src/server.js`, in iteration order. -/
abbrev AggMap := List (String × AggEntry)

/-- `if (!map[id]) map[id] = { qty: 0, title: li.name || li.title || "" };
map[id].qty += (li.quantity || 0);` — create on first observation (title
fixed then), accumulate additively afterwards. -/
def upsert (m : AggMap) (k : String) (li : LineItem) : AggMap :=
  match m with
  | [] => [(k, { qty := qtyOf li, title := titleOf li })]
  | (k', e) :: rest =>
    if k' = k then (k', { e with qty := e.qty + qtyOf li }) :: rest
    else (k', e) :: upsert rest k li

/-- The per-line-item step of `aggregateLineItems`: skip when
`!(li.variant_id || li.product_id)`. -/
def aggStep (m : AggMap) (li : LineItem) : AggMap :=
  match keyOfChecked li with
  | none => m
  | some k => upsert m k li

/-- `aggregateLineItems(orders)` from `src/server.js` lines 56-69. -/
def aggregateLineItems (orders : List Order) : AggMap :=
  orders.foldl
    (fun m o =>
      match o.line_items with
      | none => m
      | some lis => lis.foldl aggStep m)
    []

/-- A forecast record produced by `buildForecastFromAggregates`:
`{ variant_id, qty, title, totalQty: v.qty }`. -/
structure ForecastItem where
  variant_id : String
  qty : Nat
  title : String
  totalQty : Nat
deriving DecidableEq, Repr

/-- The quantity before the clamp: `let qty = Math.round(v.qty / months);
if (v.qty > 0 && qty < 1) qty = 1;`. -/
def predictedQty (totalQty months : Nat) : Nat :=
  let q0 := (jsRound ((totalQty : ℚ) / (months : ℚ))).toNat
  if 0 < totalQty ∧ q0 < 1 then 1 else q0

/-- The `.map` body of `buildForecastFromAggregates`, including the clamp
`qty = Math.min(qty, 50)`. -/
def forecastEntry (months : Nat) (p : String × AggEntry) : ForecastItem :=
  { variant_id := p.1
    qty := min (predictedQty p.2.qty months) 50
    title := p.2.title
    totalQty := p.2.qty }

/-- The comparator `(a, b) => b.totalQty - a.totalQty`: `a` may stay before
`b` exactly when `b.totalQty ≤ a.totalQty`. -/
def byTotalDesc (a b : ForecastItem) : Prop := b.totalQty ≤ a.totalQty

instance : DecidableRel byTotalDesc :=
  fun a b => inferInstanceAs (Decidable (b.totalQty ≤ a.totalQty))

instance : IsTotal ForecastItem byTotalDesc :=
  ⟨fun a b => le_total b.totalQty a.totalQty⟩

instance : IsTrans ForecastItem byTotalDesc :=
  ⟨fun _ _ _ h h' => le_trans h' h⟩

/-- `buildForecastFromAggregates(map, months = 6, topN = 12)` from
`src/server.js` lines 72-83: map every entry, sort by `totalQty`
descending (stable), take the first `topN`. -/
def buildForecastFromAggregates (map : AggMap) (months : Nat := 6) (topN : Nat := 12) :
    List ForecastItem :=
  ((map.map (forecastEntry months)).insertionSort byTotalDesc).take topN

/-- Array.prototype.join with a separator, as used by `parts.join(",")`. -/
def joinSep (sep : String) : List String → String
  | [] => ""
  | [s] => s
  | s :: rest => s ++ sep ++ joinSep sep rest

/-- `buildCartUrl(items)` from `src/server.js` lines 86-91. -/
def buildCartUrl (items : List ForecastItem) : String :=
  let parts := items.map (fun i => i.variant_id ++ ":" ++ Nat.repr i.qty)
  if parts.length = 0 then "/cart" else "/cart/" ++ joinSep "," parts

end Server

namespace TwoWindow

/-- One entry of `part_001`'s aggregate map: `{ title, totalQty }`. -/
structure AggEntry where
  title : String
  totalQty : Nat
deriving DecidableEq, Repr

/-- The aggregate map of `part_001`, in iteration order. -/
abbrev AggMap := List (String × AggEntry)

/-- `if (!map[vid]) map[vid] = { title: ..., totalQty: 0 };
map[vid].totalQty += li.quantity || 0;` from `part_001`. -/
def upsert (m : AggMap) (k : String) (li : LineItem) : AggMap :=
  match m with
  | [] => [(k, { title := titleOf li, totalQty := qtyOf li })]
  | (k', e) :: rest =>
    if k' = k then (k', { e with totalQty := e.totalQty + qtyOf li }) :: rest
    else (k', e) :: upsert rest k li

/-- The per-line-item step of `aggregateLineItemsWithSeasonality`: note the
absence of any skip — the key may be the string `"undefined"`. -/
def aggStep (m : AggMap) (li : LineItem) : AggMap :=
  upsert m (keyOfJs li) li

/-- `aggregateLineItemsWithSeasonality(recentOrders, seasonalOrders)` from
`part_001` lines 79-105.  Every recent line item contributes; a seasonal
order's line items contribute only when its creation month equals
`currentMonth` (`new Date().getMonth()`, passed explicitly here). -/
def aggregateLineItemsWithSeasonality
    (recentOrders seasonalOrders : List Order) (currentMonth : Nat) : AggMap :=
  let m1 := recentOrders.foldl (fun m o => (o.line_items.getD []).foldl aggStep m) []
  seasonalOrders.foldl
    (fun m o =>
      if o.created_month = currentMonth then (o.line_items.getD []).foldl aggStep m
      else m)
    m1

/-- A forecast record of `part_001` / `part_000`: `{ variant_id, qty, title }`. -/
structure ForecastItem where
  variant_id : String
  qty : Nat
  title : String
deriving DecidableEq, Repr

/-- The loop body of `part_001`'s `buildForecast`:
`const totalQty = Math.round(avgRecentQty) > 0 ? Math.round(avgRecentQty) : 1;`. -/
def forecastEntry (recentMonths : Nat) (p : String × AggEntry) : ForecastItem :=
  let avgRecentQty : ℚ := (p.2.totalQty : ℚ) / (recentMonths : ℚ)
  { variant_id := p.1
    qty := if 0 < jsRound avgRecentQty then (jsRound avgRecentQty).toNat else 1
    title := p.2.title }

/-- The comparator `(a, b) => b.qty - a.qty` of `part_001`/`part_000`. -/
def byQtyDesc (a b : ForecastItem) : Prop := b.qty ≤ a.qty

instance : DecidableRel byQtyDesc :=
  fun a b => inferInstanceAs (Decidable (b.qty ≤ a.qty))

instance : IsTotal ForecastItem byQtyDesc :=
  ⟨fun a b => le_total b.qty a.qty⟩

instance : IsTrans ForecastItem byQtyDesc :=
  ⟨fun _ _ _ h h' => le_trans h' h⟩

/-- `buildForecast(itemsMap, recentMonths = 6, topN = TOP_ITEMS)` from
`part_001` lines 108-118: one item per map entry, stable sort by `qty`
descending, take the first `topN` (`TOP_ITEMS = 20`). -/
def buildForecast (itemsMap : AggMap) (recentMonths : Nat := 6) (topN : Nat := 20) :
    List ForecastItem :=
  ((itemsMap.map (forecastEntry recentMonths)).insertionSort byQtyDesc).take topN

/-- `buildCartUrl(items)` from `part_001` lines 121-125. -/
def buildCartUrl (items : List ForecastItem) : String :=
  if items.length = 0 then "/cart"
  else "/cart/" ++ Server.joinSep "," (items.map (fun i => i.variant_id ++ ":" ++ Nat.repr i.qty))

end TwoWindow

namespace Seasonal

/-- One entry of `part_000`'s aggregate map:
`{ title, totalQty, monthlyQty }` where `monthlyQty` is a month-indexed
object, modelled as an association list. -/
structure AggEntry where
  title : String
  totalQty : Nat
  monthlyQty : List (Nat × Nat)
deriving DecidableEq, Repr

/-- The aggregate map of `part_000`, in iteration order. -/
abbrev AggMap := List (String × AggEntry)

/-- `data.monthlyQty[month] || 0`. -/
def monthQty (l : List (Nat × Nat)) (mo : Nat) : Nat :=
  ((l.find? (fun p => p.1 == mo)).map (fun p => p.2)).getD 0

/-- The loop body of `part_000`'s `buildForecast` (lines 75-88): a rounded
recurring quantity (`avgMonthlyQty > 0 ? Math.round(avgMonthlyQty) : 0`)
plus the current month's seasonal quantity; entries whose combined
quantity is not positive are not pushed. -/
def forecastEntry (months currentMonth : Nat) (p : String × AggEntry) :
    Option TwoWindow.ForecastItem :=
  let avgMonthlyQty : ℚ := (p.2.totalQty : ℚ) / (months : ℚ)
  let regularQty : Nat := if 0 < avgMonthlyQty then (jsRound avgMonthlyQty).toNat else 0
  let seasonalQty : Nat := monthQty p.2.monthlyQty currentMonth
  let totalQty := regularQty + seasonalQty
  if 0 < totalQty then
    some { variant_id := p.1, qty := totalQty, title := p.2.title }
  else none

/-- `buildForecast(itemsMap, months = 6)` from `part_000` lines 71-91:
push qualifying entries, stable sort by `qty` descending — note the
absence of any top-N truncation in this variant. -/
def buildForecast (itemsMap : AggMap) (months : Nat) (currentMonth : Nat) :
    List TwoWindow.ForecastItem :=
  (itemsMap.filterMap (forecastEntry months currentMonth)).insertionSort TwoWindow.byQtyDesc

end Seasonal

/-- A JS `Error` with the optional `status` property attached by
`shopifyFetch`. -/
structure JsError where
  message : String
  status : Option Nat
deriving DecidableEq, Repr

/-- The outcome of `shopifyFetch` composed with `data.orders || []`
(`fetchCustomerOrders`): on a non-success response (`!res.ok`) it throws
an error carrying `err.status = res.status`. -/
def shopifyFetchOrders (ok : Bool) (status : Nat) (orders : List Order) :
    Except JsError (List Order) :=
  if ok then .ok orders
  else .error { message := "Shopify API error: " ++ Nat.repr status, status := some status }

/-- The body of a `POST /forecast` response. -/
inductive RespBody where
  | errorMsg (error : String)
  | msgCart (cartUrl message : String)
  | success (cartUrl : String) (items : List Server.ForecastItem)
deriving DecidableEq, Repr

/-- The `POST /forecast` route of `src/server.js` lines 100-156, as a pure
function of the identity inputs and the already-performed order fetch:
validation (400), catch of the fetch error (`err.status || 500`), the two
empty-result messages, and the success path.  The fire-and-forget webhook
forward does not affect the response and is omitted. -/
def forecastRoute (customer_id email : Option String)
    (fetched : Except JsError (List Order)) : Nat × RespBody :=
  if ¬ truthyS customer_id ∧ ¬ truthyS email then
    (400, .errorMsg "Provide customer_id or email")
  else
    match fetched with
    | .error err => (jsNatOr err.status 500, .errorMsg err.message)
    | .ok orders =>
      if orders.length = 0 then
        (200, .msgCart "/cart" "No purchases in the last 6 months")
      else
        let agg := Server.aggregateLineItems orders
        let forecastItems := Server.buildForecastFromAggregates agg 6 12
        if forecastItems.length = 0 then
          (200, .msgCart "/cart" "No forecastable items found")
        else
          (200, .success (Server.buildCartUrl forecastItems) forecastItems)

/-- Character-level join with a single-character separator, mirroring
`joinSep` on `String.data`. -/
def charJoin (c : Char) : List (List Char) → List Char
  | [] => []
  | [t] => t
  | t :: rest => t ++ c :: charJoin c rest

/-- Modelled from the spec: splitting a character list at every occurrence
of a separator character (auxiliary form returning the first group and the
remaining groups). -/
def splitOnCharAux (c : Char) : List Char → List Char × List (List Char)
  | [] => ([], [])
  | a :: rest =>
    let p := splitOnCharAux c rest
    if a = c then ([], p.1 :: p.2) else (a :: p.1, p.2)

/-- Modelled from the spec: "splitting on `,` then `:`" — the list of
groups obtained by splitting at every occurrence of `c`. -/
def splitOnChar (c : Char) (l : List Char) : List (List Char) :=
  (splitOnCharAux c l).1 :: (splitOnCharAux c l).2

theorem splitOnCharAux_of_not_mem {c : Char} {l : List Char} (h : c ∉ l) :
    splitOnCharAux c l = (l, []) := by
  induction l with
  | nil => rfl
  | cons a rest ih =>
    have ha : a ≠ c := fun hac => h (hac ▸ List.mem_cons_self a rest)
    have hr : c ∉ rest := fun hc => h (List.mem_cons_of_mem a hc)
    simp [splitOnCharAux, ha, ih hr]

theorem splitOnChar_of_not_mem {c : Char} {l : List Char} (h : c ∉ l) :
    splitOnChar c l = [l] := by
  simp [splitOnChar, splitOnCharAux_of_not_mem h]

theorem splitOnCharAux_append {c : Char} {l₁ : List Char} (l₂ : List Char) (h : c ∉ l₁) :
    splitOnCharAux c (l₁ ++ c :: l₂) =
      (l₁, (splitOnCharAux c l₂).1 :: (splitOnCharAux c l₂).2) := by
  induction l₁ with
  | nil => simp [splitOnCharAux]
  | cons a rest ih =>
    have ha : a ≠ c := fun hac => h (hac ▸ List.mem_cons_self a rest)
    have hr : c ∉ rest := fun hc => h (List.mem_cons_of_mem a hc)
    simp [splitOnCharAux, ha, ih hr]

theorem splitOnChar_append {c : Char} {l₁ : List Char} (l₂ : List Char) (h : c ∉ l₁) :
    splitOnChar c (l₁ ++ c :: l₂) = l₁ :: splitOnChar c l₂ := by
  simp [splitOnChar, splitOnCharAux_append l₂ h]

theorem splitOnChar_charJoin {c : Char} :
    ∀ {ts : List (List Char)}, ts ≠ [] → (∀ t ∈ ts, c ∉ t) →
      splitOnChar c (charJoin c ts) = ts
  | [], h, _ => absurd rfl h
  | [t], _, ht => by
    simpa [charJoin] using splitOnChar_of_not_mem (ht t (List.mem_singleton_self t))
  | t :: t' :: ts, _, ht => by
    rw [show charJoin c (t :: t' :: ts) = t ++ c :: charJoin c (t' :: ts) from rfl,
      splitOnChar_append _ (ht t (List.mem_cons_self t _)),
      splitOnChar_charJoin (List.cons_ne_nil t' ts)
        (fun u hu => ht u (List.mem_cons_of_mem t hu))]

theorem splitOnChar_pair {c : Char} {l₁ l₂ : List Char} (h₁ : c ∉ l₁) (h₂ : c ∉ l₂) :
    splitOnChar c (l₁ ++ c :: l₂) = [l₁, l₂] := by
  rw [splitOnChar_append l₂ h₁, splitOnChar_of_not_mem h₂]

theorem digitChar_isDigit {m : Nat} (h : m < 10) : (Nat.digitChar m).isDigit = true := by
  interval_cases m <;> rfl

theorem toDigitsCore_isDigit :
    ∀ (fuel n : Nat) (ds : List Char), (∀ c ∈ ds, c.isDigit = true) →
      ∀ c ∈ Nat.toDigitsCore 10 fuel n ds, c.isDigit = true := by
  intro fuel
  induction fuel with
  | zero => intro n ds h c hc; exact h c hc
  | succ f ih =>
    intro n ds h c hc
    have hd : ∀ c ∈ Nat.digitChar (n % 10) :: ds, c.isDigit = true := by
      intro c' hc'
      rcases List.mem_cons.mp hc' with h' | h'
      · exact h' ▸ digitChar_isDigit (Nat.mod_lt _ (by norm_num))
      · exact h c' h'
    simp only [Nat.toDigitsCore] at hc
    by_cases h0 : n / 10 = 0
    · rw [if_pos h0] at hc
      exact hd c hc
    · rw [if_neg h0] at hc
      exact ih _ _ hd c hc

theorem repr_data_isDigit (n : Nat) : ∀ c ∈ (Nat.repr n).data, c.isDigit = true :=
  toDigitsCore_isDigit (n + 1) n [] (fun _ h => absurd h (List.not_mem_nil _))

theorem comma_not_mem_repr (n : Nat) : ',' ∉ (Nat.repr n).data := fun h => by
  simpa using repr_data_isDigit n ',' h

theorem colon_not_mem_repr (n : Nat) : ':' ∉ (Nat.repr n).data := fun h => by
  simpa using repr_data_isDigit n ':' h

/-- Modelled from the spec: the round-trip parser — strip the `/cart/`
prefix, split the suffix on `,`, then split each token on `:` into the
(identifier, quantity) pair.  The literal path `/cart` parses to the
empty sequence. -/
def parseCartPath (s : String) : List (String × String) :=
  if s = "/cart" then []
  else
    (splitOnChar ',' (s.data.drop 6)).map fun tok =>
      match splitOnChar ':' tok with
      | [a, b] => (⟨a⟩, ⟨b⟩)
      | _ => ("", "")

theorem joinSep_comma_data (parts : List String) :
    (Server.joinSep "," parts).data = charJoin ',' (parts.map String.data) := by
  induction parts with
  | nil => rfl
  | cons s rest ih =>
    cases rest with
    | nil => rfl
    | cons s' rest' =>
      show (s ++ "," ++ Server.joinSep "," (s' :: rest')).data = _
      rw [String.data_append, String.data_append, ih,
        show ("," : String).data = [','] from rfl]
      simp [charJoin]

theorem parse_cart_tokens (pairs : List (String × String)) (hne : pairs ≠ [])
    (hid : ∀ p ∈ pairs, ',' ∉ p.1.data ∧ ':' ∉ p.1.data)
    (hq : ∀ p ∈ pairs, ∀ c ∈ p.2.data, c.isDigit = true) :
    parseCartPath ("/cart/" ++ Server.joinSep "," (pairs.map (fun p => p.1 ++ ":" ++ p.2)))
      = pairs := by
  have token_data : ∀ p : String × String, (p.1 ++ ":" ++ p.2).data
      = p.1.data ++ ':' :: p.2.data := by
    intro p
    rw [String.data_append, String.data_append,
      show (":" : String).data = [':'] from rfl]
    simp
  have data_eq : ("/cart/" ++ Server.joinSep ","
      (pairs.map (fun p => p.1 ++ ":" ++ p.2))).data
      = "/cart/".data ++ charJoin ',' (pairs.map (fun p => p.1.data ++ ':' :: p.2.data)) := by
    rw [String.data_append, joinSep_comma_data, List.map_map]
    refine congrArg _ (congrArg (charJoin ',') (List.map_congr_left ?_))
    intro p _
    simp [token_data p]
  have hlen : ("/cart/" ++ Server.joinSep ","
      (pairs.map (fun p => p.1 ++ ":" ++ p.2))).data.length ≥ 6 := by
    rw [data_eq, List.length_append]
    have h6 : ("/cart/" : String).data.length = 6 := rfl
    omega
  have hneq : ("/cart/" ++ Server.joinSep ","
      (pairs.map (fun p => p.1 ++ ":" ++ p.2))) ≠ "/cart" :=
    fun h => absurd (h ▸ hlen) (by decide)
  rw [parseCartPath, if_neg hneq, data_eq,
    List.drop_left' (show ("/cart/" : String).data.length = 6 from rfl)]
  rw [splitOnChar_charJoin (by simpa using hne)
    (by
      intro t ht
      rcases List.mem_map.mp ht with ⟨p, hp, rfl⟩
      intro hmem
      rcases List.mem_append.mp hmem with h' | h'
      · exact (hid p hp).1 h'
      · rcases List.mem_cons.mp h' with h'' | h''
        · exact absurd h'' (by decide)
        · simpa using hq p hp ',' h'')]
  rw [List.map_map]
  have : ∀ p ∈ pairs,
      ((fun tok => match splitOnChar ':' tok with
        | [a, b] => ((⟨a⟩ : String), (⟨b⟩ : String))
        | _ => ("", "")) ∘ fun p : String × String => p.1.data ++ ':' :: p.2.data) p = p := by
    intro p hp
    have hsplit := splitOnChar_pair (hid p hp).2
      (fun h' => by simpa using hq p hp ':' h')
    simp only [Function.comp_apply, hsplit]
  exact List.map_congr_left this ▸ List.map_id pairs

/-- The accumulated total quantity recorded in a two-window aggregate map
for a given item identifier (0 when absent). -/
def TwoWindow.totalAt : TwoWindow.AggMap → String → Nat
  | [], _ => 0
  | (k', e) :: rest, k => if k' = k then e.totalQty else TwoWindow.totalAt rest k

theorem map_filterMap_sublist {α β γ : Type _} (f : α → Option β) (g : β → γ) (h : α → γ)
    (hf : ∀ a b, f a = some b → g b = h a) :
    ∀ l : List α, List.Sublist ((l.filterMap f).map g) (l.map h) := by
  intro l
  induction l with
  | nil => simp
  | cons a rest ih =>
    rw [List.filterMap_cons, List.map_cons]
    cases hfa : f a with
    | none => exact ih.cons (h a)
    | some b => rw [List.map_cons, hf a b hfa]; exact ih.cons₂ (h a)

/-- C1: the clamping forecaster `buildForecastFromAggregates` does sort its
output by descending accumulated total quantity, but the two-window
`buildForecast` sorts by the rounded predicted quantity `qty` instead; its
output is descending in `qty`, not in accumulated total. -/
theorem c1_ranking_sorted_amended :
    (∀ (m : Server.AggMap) (months topN : ℕ),
      (Server.buildForecastFromAggregates m months topN).Pairwise Server.byTotalDesc)
    ∧ (∀ (m : TwoWindow.AggMap) (months topN : ℕ),
      (TwoWindow.buildForecast m months topN).Pairwise TwoWindow.byQtyDesc) := by
  constructor
  · intro m months topN
    exact List.Pairwise.sublist (List.take_sublist _ _)
      (List.sorted_insertionSort Server.byTotalDesc _)
  · intro m months topN
    exact List.Pairwise.sublist (List.take_sublist _ _)
      (List.sorted_insertionSort TwoWindow.byQtyDesc _)

/-- C1 counterexample: with the aggregate map holding totals 3 (for "1")
and 8 (for "2"), both entries round to a predicted quantity of 1, the
stable sort keeps iteration order, and the two-window forecast emits the
total-3 item before the total-8 item — adjacent accumulated totals are not
descending. -/
theorem c1_ranking_counterexample :
    ¬ List.Chain'
        (fun a b : TwoWindow.ForecastItem =>
          TwoWindow.totalAt [("1", ⟨"", 3⟩), ("2", ⟨"", 8⟩)] b.variant_id
            ≤ TwoWindow.totalAt [("1", ⟨"", 3⟩), ("2", ⟨"", 8⟩)] a.variant_id)
        (TwoWindow.buildForecast [("1", ⟨"", 3⟩), ("2", ⟨"", 8⟩)] 6 20) := by
  have h1 : TwoWindow.forecastEntry 6 ("1", ⟨"", 3⟩) = ⟨"1", 1, ""⟩ := by
    simp only [TwoWindow.forecastEntry, jsRound_natCast_div]
    norm_num
  have h2 : TwoWindow.forecastEntry 6 ("2", ⟨"", 8⟩) = ⟨"2", 1, ""⟩ := by
    simp only [TwoWindow.forecastEntry, jsRound_natCast_div]
    norm_num
  have hout : TwoWindow.buildForecast [("1", ⟨"", 3⟩), ("2", ⟨"", 8⟩)] 6 20
      = [⟨"1", 1, ""⟩, ⟨"2", 1, ""⟩] := by
    unfold TwoWindow.buildForecast
    rw [List.map_cons, List.map_cons, List.map_nil, h1, h2]
    decide
  rw [hout, List.chain'_cons]
  intro hcl
  exact absurd hcl.1 (by decide)

/-- C6: all three forecasters emit no duplicate item identifiers (given
the aggregate map's keys are distinct, as produced by the aggregators),
and the two forecasters that take a top-N bound emit at most top-N items.
The `part_000` variant has no configured top-N and performs no truncation. -/
theorem c6_topN_nodup :
    (∀ (m : Server.AggMap) (months topN : ℕ),
      (Server.buildForecastFromAggregates m months topN).length ≤ topN)
    ∧ (∀ (m : TwoWindow.AggMap) (months topN : ℕ),
      (TwoWindow.buildForecast m months topN).length ≤ topN)
    ∧ (∀ (m : Server.AggMap) (months topN : ℕ), (m.map Prod.fst).Nodup →
      ((Server.buildForecastFromAggregates m months topN).map
        Server.ForecastItem.variant_id).Nodup)
    ∧ (∀ (m : TwoWindow.AggMap) (months topN : ℕ), (m.map Prod.fst).Nodup →
      ((TwoWindow.buildForecast m months topN).map
        TwoWindow.ForecastItem.variant_id).Nodup)
    ∧ (∀ (m : Seasonal.AggMap) (months cm : ℕ), (m.map Prod.fst).Nodup →
      ((Seasonal.buildForecast m months cm).map
        TwoWindow.ForecastItem.variant_id).Nodup) := by
  refine ⟨fun m months topN => List.length_take_le _ _,
    fun m months topN => List.length_take_le _ _, ?_, ?_, ?_⟩
  · intro m months topN h
    have hids : (m.map (Server.forecastEntry months)).map Server.ForecastItem.variant_id
        = m.map Prod.fst := by
      rw [List.map_map]; exact List.map_congr_left (fun p _ => rfl)
    have hperm : List.Perm
        (((m.map (Server.forecastEntry months)).insertionSort
          Server.byTotalDesc).map Server.ForecastItem.variant_id)
        (m.map Prod.fst) :=
      hids ▸ (List.perm_insertionSort Server.byTotalDesc _).map _
    rw [Server.buildForecastFromAggregates, List.map_take]
    exact List.Nodup.sublist (List.take_sublist _ _) (hperm.symm.nodup h)
  · intro m months topN h
    have hids : (m.map (TwoWindow.forecastEntry months)).map TwoWindow.ForecastItem.variant_id
        = m.map Prod.fst := by
      rw [List.map_map]; exact List.map_congr_left (fun p _ => rfl)
    have hperm : List.Perm
        (((m.map (TwoWindow.forecastEntry months)).insertionSort
          TwoWindow.byQtyDesc).map TwoWindow.ForecastItem.variant_id)
        (m.map Prod.fst) :=
      hids ▸ (List.perm_insertionSort TwoWindow.byQtyDesc _).map _
    rw [TwoWindow.buildForecast, List.map_take]
    exact List.Nodup.sublist (List.take_sublist _ _) (hperm.symm.nodup h)
  · intro m months cm h
    have hsub : List.Sublist ((m.filterMap (Seasonal.forecastEntry months cm)).map
        TwoWindow.ForecastItem.variant_id) (m.map Prod.fst) := by
      refine map_filterMap_sublist _ _ _ ?_ m
      intro p it hit
      simp only [Seasonal.forecastEntry] at hit
      split at hit <;> split at hit <;>
        first
          | (injection hit with h2; rw [← h2])
          | exact absurd hit (by simp)
    have hperm : List.Perm
        ((Seasonal.buildForecast m months cm).map TwoWindow.ForecastItem.variant_id)
        ((m.filterMap (Seasonal.forecastEntry months cm)).map
            TwoWindow.ForecastItem.variant_id) :=
      (List.perm_insertionSort TwoWindow.byQtyDesc _).map _
    exact hperm.symm.nodup (List.Nodup.sublist hsub h)

/-- C6 witness: the bounds and distinctness hold on a concrete two-entry map. -/
theorem c6_topN_nodup_witness :
    ((Server.buildForecastFromAggregates [("1", ⟨5, "A"⟩), ("2", ⟨3, "B"⟩)] 6 12).length ≤ 12)
    ∧ ((Server.buildForecastFromAggregates [("1", ⟨5, "A"⟩), ("2", ⟨3, "B"⟩)] 6 12).map
        Server.ForecastItem.variant_id).Nodup
    ∧ ((TwoWindow.buildForecast [("7", ⟨"C", 9⟩)] 6 20).map
        TwoWindow.ForecastItem.variant_id).Nodup
    ∧ ((Seasonal.buildForecast [("7", ⟨"C", 9, [(0, 9)]⟩)] 6 0).map
        TwoWindow.ForecastItem.variant_id).Nodup :=
  ⟨c6_topN_nodup.1 [("1", ⟨5, "A"⟩), ("2", ⟨3, "B"⟩)] 6 12,
    c6_topN_nodup.2.2.1 [("1", ⟨5, "A"⟩), ("2", ⟨3, "B"⟩)] 6 12 (by decide),
    c6_topN_nodup.2.2.2.1 [("7", ⟨"C", 9⟩)] 6 20 (by decide),
    c6_topN_nodup.2.2.2.2 [("7", ⟨"C", 9, [(0, 9)]⟩)] 6 0 (by decide)⟩

theorem server_buildCartUrl_ne_nil {items : List Server.ForecastItem} (h : items ≠ []) :
    Server.buildCartUrl items = "/cart/" ++ Server.joinSep ","
      (items.map (fun i => i.variant_id ++ ":" ++ Nat.repr i.qty)) := by
  unfold Server.buildCartUrl
  rw [if_neg]
  simp [h]

theorem twoWindow_buildCartUrl_ne_nil {items : List TwoWindow.ForecastItem} (h : items ≠ []) :
    TwoWindow.buildCartUrl items = "/cart/" ++ Server.joinSep ","
      (items.map (fun i => i.variant_id ++ ":" ++ Nat.repr i.qty)) := by
  unfold TwoWindow.buildCartUrl
  rw [if_neg]
  simp [h]

/-- C5: both `buildCartUrl` variants render the empty sequence as the
literal `/cart`, render a non-empty sequence as `/cart/` followed by the
`id:qty` tokens joined by `,` in sequence order, and (for identifiers free
of the `,` and `:` separator characters, as the numeric Shopify
identifiers are) splitting the rendered suffix on `,` then `:`
reconstructs exactly the (identifier, rendered quantity) pairs in order. -/
theorem c5_cart_url_roundtrip :
    (Server.buildCartUrl [] = "/cart" ∧ TwoWindow.buildCartUrl [] = "/cart")
    ∧ (∀ items : List Server.ForecastItem, items ≠ [] →
        Server.buildCartUrl items = "/cart/" ++ Server.joinSep ","
          (items.map (fun i => i.variant_id ++ ":" ++ Nat.repr i.qty)))
    ∧ (∀ items : List Server.ForecastItem,
        (∀ i ∈ items, ',' ∉ i.variant_id.data ∧ ':' ∉ i.variant_id.data) →
        parseCartPath (Server.buildCartUrl items)
          = items.map (fun i => (i.variant_id, Nat.repr i.qty)))
    ∧ (∀ items : List TwoWindow.ForecastItem,
        (∀ i ∈ items, ',' ∉ i.variant_id.data ∧ ':' ∉ i.variant_id.data) →
        parseCartPath (TwoWindow.buildCartUrl items)
          = items.map (fun i => (i.variant_id, Nat.repr i.qty))) := by
  refine ⟨⟨rfl, rfl⟩, fun items h => server_buildCartUrl_ne_nil h, ?_, ?_⟩
  · intro items hsafe
    rcases items with _ | ⟨i0, rest⟩
    · rfl
    · have hne : i0 :: rest ≠ [] := List.cons_ne_nil i0 rest
      rw [server_buildCartUrl_ne_nil hne]
      have hmaps : (i0 :: rest).map (fun i => i.variant_id ++ ":" ++ Nat.repr i.qty)
          = ((i0 :: rest).map (fun i => (i.variant_id, Nat.repr i.qty))).map
              (fun p => p.1 ++ ":" ++ p.2) := by
        rw [List.map_map]
        rfl
      rw [hmaps]
      refine parse_cart_tokens _ (by simp) ?_ ?_
      · intro p hp
        rcases List.mem_map.mp hp with ⟨i, hi, rfl⟩
        exact hsafe i hi
      · intro p hp
        rcases List.mem_map.mp hp with ⟨i, hi, rfl⟩
        exact repr_data_isDigit i.qty
  · intro items hsafe
    rcases items with _ | ⟨i0, rest⟩
    · rfl
    · have hne : i0 :: rest ≠ [] := List.cons_ne_nil i0 rest
      rw [twoWindow_buildCartUrl_ne_nil hne]
      have hmaps : (i0 :: rest).map (fun i => i.variant_id ++ ":" ++ Nat.repr i.qty)
          = ((i0 :: rest).map (fun i => (i.variant_id, Nat.repr i.qty))).map
              (fun p => p.1 ++ ":" ++ p.2) := by
        rw [List.map_map]
        rfl
      rw [hmaps]
      refine parse_cart_tokens _ (by simp) ?_ ?_
      · intro p hp
        rcases List.mem_map.mp hp with ⟨i, hi, rfl⟩
        exact hsafe i hi
      · intro p hp
        rcases List.mem_map.mp hp with ⟨i, hi, rfl⟩
        exact repr_data_isDigit i.qty

/-- C5 witness: a concrete two-item forecast renders and parses back. -/
theorem c5_cart_url_roundtrip_witness :
    parseCartPath (Server.buildCartUrl
      [⟨"111", 1, "", 6⟩, ⟨"222", 3, "", 9⟩])
      = [("111", "1"), ("222", "3")] := by
  have h := c5_cart_url_roundtrip.2.2.1 [⟨"111", 1, "", 6⟩, ⟨"222", 3, "", 9⟩]
    (by decide)
  rw [h]
  rfl

/-- C2: for a positive recent-window length, `Math.round(totalQty / months)`
is round-half-up, i.e. the natural division `(2*t + m) / (2*m)`; the
clamping variant's pre-clamp quantity is that value with the floor rule
(`1` when the rounded value is below `1` while the total is positive), and
the two-window variant's emitted quantity likewise floors the rounded
value to `1`. -/
theorem c2_round_half_up (t m : ℕ) (_hm : 0 < m) :
    jsRound ((t : ℚ) / (m : ℚ)) = (((2 * t + m) / (2 * m) : ℕ) : ℤ)
    ∧ Server.predictedQty t m
        = (if 0 < t ∧ (2 * t + m) / (2 * m) < 1 then 1 else (2 * t + m) / (2 * m))
    ∧ (∀ (k title : String),
        (TwoWindow.forecastEntry m (k, ⟨title, t⟩)).qty
          = (if (2 * t + m) / (2 * m) < 1 then 1 else (2 * t + m) / (2 * m))) := by
  refine ⟨jsRound_natCast_div t m, ?_, ?_⟩
  · simp only [Server.predictedQty, jsRound_natCast_div, Int.toNat_natCast]
  · intro k title
    simp only [TwoWindow.forecastEntry, jsRound_natCast_div, Int.toNat_natCast]
    rcases Nat.eq_zero_or_pos ((2 * t + m) / (2 * m)) with h0 | h0
    · rw [h0]
      norm_num
    · rw [if_pos (by exact_mod_cast h0), if_neg (by omega)]

/-- C2 witness: totals 1 and 9 over a 6-month window predict 1 (floor
rule: round(1/6) = 0 is forced to 1) and 2 (round-half-up of 9/6 = 1.5). -/
theorem c2_round_half_up_witness :
    Server.predictedQty 1 6 = 1 ∧ Server.predictedQty 9 6 = 2 := by
  have h1 := (c2_round_half_up 1 6 (by decide)).2.1
  have h2 := (c2_round_half_up 9 6 (by decide)).2.1
  rw [h1, h2]
  constructor <;> decide

/-- C10: in the two-window forecaster every aggregate entry yields exactly
one pre-truncation item; whenever the rounded average is not strictly
positive (in particular for a zero total) the emitted quantity is exactly
1, so every emitted quantity is at least 1 and no entry is dropped for a
low or zero total. -/
theorem c10_two_window_floor (itemsMap : TwoWindow.AggMap) (m topN : ℕ) (_hm : 0 < m) :
    (itemsMap.map (TwoWindow.forecastEntry m)).length = itemsMap.length
    ∧ (∀ p : String × TwoWindow.AggEntry,
        jsRound ((p.2.totalQty : ℚ) / (m : ℚ)) ≤ 0 → (TwoWindow.forecastEntry m p).qty = 1)
    ∧ (∀ it ∈ TwoWindow.buildForecast itemsMap m topN, 1 ≤ it.qty) := by
  refine ⟨List.length_map _ _, ?_, ?_⟩
  · intro p hle
    simp only [TwoWindow.forecastEntry]
    rw [if_neg (by omega)]
  · intro it hit
    have hmem : it ∈ itemsMap.map (TwoWindow.forecastEntry m) :=
      (List.perm_insertionSort _ _).subset (List.take_subset _ _ hit)
    rcases List.mem_map.mp hmem with ⟨p, _, rfl⟩
    simp only [TwoWindow.forecastEntry]
    split
    · rename_i hpos
      omega
    · exact le_refl 1

/-- C10 witness: with a 6-month window, a zero-total entry and a total-40
entry both survive with quantities 1 and 7. -/
theorem c10_two_window_floor_witness :
    ((([("a", ⟨"", 0⟩), ("b", ⟨"", 40⟩)] : TwoWindow.AggMap).map
        (TwoWindow.forecastEntry 6)).length = 2)
    ∧ (∀ it ∈ TwoWindow.buildForecast [("a", ⟨"", 0⟩), ("b", ⟨"", 40⟩)] 6 20,
        1 ≤ it.qty) :=
  ⟨(c10_two_window_floor [("a", ⟨"", 0⟩), ("b", ⟨"", 40⟩)] 6 20 (by decide)).1,
    (c10_two_window_floor [("a", ⟨"", 0⟩), ("b", ⟨"", 40⟩)] 6 20 (by decide)).2.2⟩

/-- C3 counterexample: `buildForecastFromAggregates` performs no
positive-total filtering — an aggregate entry with total quantity 0 is
emitted with quantity 0, so the output contains a non-positive quantity
and the zero-total entry is not excluded. -/
theorem c3_positive_qty_counterexample :
    ¬ (∀ it ∈ Server.buildForecastFromAggregates [("1", ⟨0, ""⟩)] 6 12, 0 < it.qty)
    ∧ "1" ∈ (Server.buildForecastFromAggregates [("1", ⟨0, ""⟩)] 6 12).map
        Server.ForecastItem.variant_id := by
  have hp : Server.predictedQty 0 6 = 0 := by
    simp only [Server.predictedQty, jsRound_natCast_div, Int.toNat_natCast]
    decide
  have hentry : Server.forecastEntry 6 ("1", ⟨0, ""⟩) = ⟨"1", 0, "", 0⟩ := by
    simp only [Server.forecastEntry, hp]
    rfl
  have h : Server.buildForecastFromAggregates [("1", ⟨0, ""⟩)] 6 12 = [⟨"1", 0, "", 0⟩] := by
    unfold Server.buildForecastFromAggregates
    rw [List.map_cons, List.map_nil, hentry]
    rfl
  rw [h]
  constructor
  · intro hall
    exact absurd (hall ⟨"1", 0, "", 0⟩ (by simp)) (by decide)
  · simp

/-- C3 amended: the `part_000` seasonal forecaster emits only strictly
positive quantities and (for aggregator-shaped maps, where the current
month's quantity is bounded by the total) only entries with strictly
positive total; the clamping variant caps every emitted quantity at 50
and emits a strictly positive quantity whenever the entry's total is
strictly positive, but it does not exclude zero-total entries. -/
theorem c3_positive_qty_amended :
    (∀ (m : Seasonal.AggMap) (months cm : ℕ),
      ∀ it ∈ Seasonal.buildForecast m months cm, 0 < it.qty)
    ∧ (∀ (m : Seasonal.AggMap) (months cm : ℕ),
        (∀ p ∈ m, Seasonal.monthQty p.2.monthlyQty cm ≤ p.2.totalQty) →
        ∀ it ∈ Seasonal.buildForecast m months cm,
          ∃ p ∈ m, p.1 = it.variant_id ∧ 0 < p.2.totalQty)
    ∧ (∀ (m : Server.AggMap) (months topN : ℕ),
        ∀ it ∈ Server.buildForecastFromAggregates m months topN,
          it.qty ≤ 50 ∧ (0 < it.totalQty → 0 < it.qty)) := by
  refine ⟨?_, ?_, ?_⟩
  · intro m months cm it hit
    have hmem : it ∈ m.filterMap (Seasonal.forecastEntry months cm) :=
      (List.perm_insertionSort _ _).subset hit
    rcases List.mem_filterMap.mp hmem with ⟨p, _, hfp⟩
    simp only [Seasonal.forecastEntry] at hfp
    split at hfp <;> split at hfp <;>
      first
        | (rename_i houter; injection hfp with h2; rw [← h2]; exact houter)
        | exact absurd hfp (by simp)
  · intro m months cm hwf it hit
    have hmem : it ∈ m.filterMap (Seasonal.forecastEntry months cm) :=
      (List.perm_insertionSort _ _).subset hit
    rcases List.mem_filterMap.mp hmem with ⟨p, hp, hfp⟩
    simp only [Seasonal.forecastEntry] at hfp
    split at hfp
    · rename_i havg
      split at hfp
      · injection hfp with h2
        refine ⟨p, hp, by rw [← h2], ?_⟩
        by_contra h0
        push_neg at h0
        have hq : p.2.totalQty = 0 := by omega
        rw [hq] at havg
        norm_num at havg
      · exact absurd hfp (by simp)
    · split at hfp
      · rename_i houter
        injection hfp with h2
        refine ⟨p, hp, by rw [← h2], ?_⟩
        have := hwf p hp
        omega
      · exact absurd hfp (by simp)
  · intro m months topN it hit
    have hmem : it ∈ m.map (Server.forecastEntry months) :=
      (List.perm_insertionSort _ _).subset (List.take_subset _ _ hit)
    rcases List.mem_map.mp hmem with ⟨p, _, rfl⟩
    refine ⟨min_le_right _ _, ?_⟩
    intro hpos
    have : 1 ≤ Server.predictedQty p.2.qty months := by
      simp only [Server.predictedQty]
      split
      · exact le_refl 1
      · rename_i hcond
        push_neg at hcond
        have := hcond hpos
        omega
    simp only [Server.forecastEntry]
    omega

/-- C3 amended witness: concrete checks of the positive-quantity and clamp
facts on one-entry maps. -/
theorem c3_positive_qty_amended_witness :
    (∀ it ∈ Seasonal.buildForecast [("7", ⟨"C", 9, [(0, 9)]⟩)] 6 0, 0 < it.qty)
    ∧ (∃ p ∈ ([("7", ⟨"C", 9, [(0, 9)]⟩)] : Seasonal.AggMap), p.1 = "7" ∧ 0 < p.2.totalQty)
    ∧ (∀ it ∈ Server.buildForecastFromAggregates [("1", ⟨600, "A"⟩)] 6 12,
        it.qty ≤ 50 ∧ (0 < it.totalQty → 0 < it.qty)) :=
  ⟨c3_positive_qty_amended.1 [("7", ⟨"C", 9, [(0, 9)]⟩)] 6 0,
    ⟨("7", ⟨"C", 9, [(0, 9)]⟩), by simp, rfl, by decide⟩,
    c3_positive_qty_amended.2.2 [("1", ⟨600, "A"⟩)] 6 12⟩

/-- The display title recorded in a two-window aggregate map for a key. -/
def TwoWindow.titleAt : TwoWindow.AggMap → String → Option String
  | [], _ => none
  | (k', e) :: rest, k => if k' = k then some e.title else TwoWindow.titleAt rest k

/-- The display title recorded in a `src/server.js` aggregate map for a key. -/
def Server.titleAt : Server.AggMap → String → Option String
  | [], _ => none
  | (k', e) :: rest, k => if k' = k then some e.title else Server.titleAt rest k

/-- The total quantity contributed to key `k` by a line-item list under the
two-window keying (`String(li.variant_id || li.product_id)`). -/
def sumQtyForKey (k : String) (lis : List LineItem) : Nat :=
  ((lis.filter (fun li => keyOfJs li == k)).map qtyOf).sum

theorem TwoWindow.totalAt_upsert (m : TwoWindow.AggMap) (k' k : String) (li : LineItem) :
    TwoWindow.totalAt (TwoWindow.upsert m k' li) k
      = TwoWindow.totalAt m k + (if k' = k then qtyOf li else 0) := by
  induction m with
  | nil =>
    by_cases h : k' = k <;> simp [TwoWindow.upsert, TwoWindow.totalAt, h]
  | cons a rest ih =>
    obtain ⟨ka, ea⟩ := a
    by_cases h1 : ka = k'
    · subst h1
      by_cases h2 : ka = k <;>
        simp [TwoWindow.upsert, TwoWindow.totalAt, h2, Nat.add_assoc]
    · by_cases h2 : ka = k
      · subst h2
        have h3 : ¬ k' = ka := fun h => h1 h.symm
        simp [TwoWindow.upsert, TwoWindow.totalAt, h1, h3]
      · simp [TwoWindow.upsert, TwoWindow.totalAt, h1, h2, ih]

theorem TwoWindow.titleAt_upsert (m : TwoWindow.AggMap) (k' k : String) (li : LineItem) :
    TwoWindow.titleAt (TwoWindow.upsert m k' li) k
      = match TwoWindow.titleAt m k with
        | some t => some t
        | none => if k' = k then some (titleOf li) else none := by
  induction m with
  | nil =>
    by_cases h : k' = k <;> simp [TwoWindow.upsert, TwoWindow.titleAt, h]
  | cons a rest ih =>
    obtain ⟨ka, ea⟩ := a
    by_cases h1 : ka = k'
    · subst h1
      by_cases h2 : ka = k
      · simp [TwoWindow.upsert, TwoWindow.titleAt, h2]
      · simp [TwoWindow.upsert, TwoWindow.titleAt, h2]
        cases TwoWindow.titleAt rest k <;> rfl
    · by_cases h2 : ka = k
      · subst h2
        have h3 : ¬ k' = ka := fun h => h1 h.symm
        simp [TwoWindow.upsert, TwoWindow.titleAt, h1, h3]
      · simp [TwoWindow.upsert, TwoWindow.titleAt, h1, h2, ih]

theorem TwoWindow.totalAt_foldl (lis : List LineItem) (m : TwoWindow.AggMap) (k : String) :
    TwoWindow.totalAt (lis.foldl TwoWindow.aggStep m) k
      = TwoWindow.totalAt m k + sumQtyForKey k lis := by
  induction lis generalizing m with
  | nil => simp [sumQtyForKey]
  | cons li rest ih =>
    rw [List.foldl_cons, ih,
      show TwoWindow.aggStep m li = TwoWindow.upsert m (keyOfJs li) li from rfl,
      TwoWindow.totalAt_upsert]
    by_cases h : keyOfJs li = k <;> simp [sumQtyForKey, h, Nat.add_assoc]

theorem TwoWindow.titleAt_foldl (lis : List LineItem) (m : TwoWindow.AggMap) (k : String) :
    TwoWindow.titleAt (lis.foldl TwoWindow.aggStep m) k
      = match TwoWindow.titleAt m k with
        | some t => some t
        | none => (lis.find? (fun li => keyOfJs li == k)).map titleOf := by
  induction lis generalizing m with
  | nil => cases htm : TwoWindow.titleAt m k <;> simp [htm]
  | cons li rest ih =>
    rw [List.foldl_cons, ih,
      show TwoWindow.aggStep m li = TwoWindow.upsert m (keyOfJs li) li from rfl,
      TwoWindow.titleAt_upsert]
    by_cases h : keyOfJs li = k
    · cases htm : TwoWindow.titleAt m k <;> simp [h, htm]
    · cases htm : TwoWindow.titleAt m k <;> simp [h, htm]

theorem TwoWindow.totalAt_orders_foldl (os : List Order) (m : TwoWindow.AggMap) (k : String) :
    TwoWindow.totalAt
        (os.foldl (fun m o => (o.line_items.getD []).foldl TwoWindow.aggStep m) m) k
      = TwoWindow.totalAt m k
        + sumQtyForKey k (os.flatMap (fun o => o.line_items.getD [])) := by
  induction os generalizing m with
  | nil => simp [sumQtyForKey]
  | cons o rest ih =>
    rw [List.foldl_cons, ih, TwoWindow.totalAt_foldl, List.flatMap_cons]
    simp [sumQtyForKey, Nat.add_assoc]

theorem TwoWindow.totalAt_seasonal_foldl (os : List Order) (cm : ℕ)
    (m : TwoWindow.AggMap) (k : String) :
    TwoWindow.totalAt
        (os.foldl (fun m o =>
          if o.created_month = cm then (o.line_items.getD []).foldl TwoWindow.aggStep m
          else m) m) k
      = TwoWindow.totalAt m k
        + sumQtyForKey k ((os.filter (fun o => o.created_month == cm)).flatMap
            (fun o => o.line_items.getD [])) := by
  induction os generalizing m with
  | nil => simp [sumQtyForKey]
  | cons o rest ih =>
    rw [List.foldl_cons]
    by_cases h : o.created_month = cm
    · rw [if_pos h, ih, TwoWindow.totalAt_foldl]
      simp [h, sumQtyForKey, Nat.add_assoc]
    · rw [if_neg h, ih]
      simp [h]

/-- C4: in the two-window aggregator, the accumulated total for an item
identifier is exactly the sum of the quantities of all recent-window line
items with that key plus the quantities of the line items of those
seasonal-window orders whose creation month equals the current month —
seasonal orders of any other month contribute nothing, and both signals
accumulate additively into the same entry. -/
theorem c4_seasonal_aggregation (recent seasonal : List Order) (cm : ℕ) (k : String) :
    TwoWindow.totalAt (TwoWindow.aggregateLineItemsWithSeasonality recent seasonal cm) k
      = sumQtyForKey k (recent.flatMap (fun o => o.line_items.getD []))
        + sumQtyForKey k ((seasonal.filter (fun o => o.created_month == cm)).flatMap
            (fun o => o.line_items.getD [])) := by
  unfold TwoWindow.aggregateLineItemsWithSeasonality
  rw [TwoWindow.totalAt_seasonal_foldl, TwoWindow.totalAt_orders_foldl]
  simp [TwoWindow.totalAt]

theorem server_titleAt_upsert (m : Server.AggMap) (k' k : String) (li : LineItem) :
    Server.titleAt (Server.upsert m k' li) k
      = match Server.titleAt m k with
        | some t => some t
        | none => if k' = k then some (titleOf li) else none := by
  induction m with
  | nil =>
    by_cases h : k' = k <;> simp [Server.upsert, Server.titleAt, h]
  | cons a rest ih =>
    obtain ⟨ka, ea⟩ := a
    by_cases h1 : ka = k'
    · subst h1
      by_cases h2 : ka = k
      · simp [Server.upsert, Server.titleAt, h2]
      · simp [Server.upsert, Server.titleAt, h2]
        cases Server.titleAt rest k <;> rfl
    · by_cases h2 : ka = k
      · subst h2
        have h3 : ¬ k' = ka := fun h => h1 h.symm
        simp [Server.upsert, Server.titleAt, h1, h3]
      · simp [Server.upsert, Server.titleAt, h1, h2, ih]

theorem server_titleAt_foldl (lis : List LineItem) (m : Server.AggMap) (k : String) :
    Server.titleAt (lis.foldl Server.aggStep m) k
      = match Server.titleAt m k with
        | some t => some t
        | none => (lis.find? (fun li => keyOfChecked li == some k)).map titleOf := by
  induction lis generalizing m with
  | nil => cases htm : Server.titleAt m k <;> simp [htm]
  | cons li rest ih =>
    rw [List.foldl_cons, ih]
    cases hk : keyOfChecked li with
    | none =>
      have hstep : Server.aggStep m li = m := by simp [Server.aggStep, hk]
      rw [hstep]
      cases htm : Server.titleAt m k <;> simp [htm, hk]
    | some k'' =>
      have hstep : Server.aggStep m li = Server.upsert m k'' li := by
        simp [Server.aggStep, hk]
      rw [hstep, server_titleAt_upsert]
      by_cases h : k'' = k
      · cases htm : Server.titleAt m k <;> simp [htm, hk, h]
      · cases htm : Server.titleAt m k <;> simp [htm, hk, h]

theorem server_titleAt_orders_foldl (os : List Order) (m : Server.AggMap) (k : String) :
    Server.titleAt
        (os.foldl (fun m o =>
          match o.line_items with
          | none => m
          | some lis => lis.foldl Server.aggStep m) m) k
      = match Server.titleAt m k with
        | some t => some t
        | none => ((os.flatMap (fun o => o.line_items.getD [])).find?
            (fun li => keyOfChecked li == some k)).map titleOf := by
  induction os generalizing m with
  | nil => cases htm : Server.titleAt m k <;> simp [htm]
  | cons o rest ih =>
    rw [List.foldl_cons, ih, List.flatMap_cons, List.find?_append]
    cases hli : o.line_items with
    | none =>
      cases htm : Server.titleAt m k <;> simp [htm, hli]
    | some lis =>
      rw [show (match some lis with
          | none => m
          | some lis => lis.foldl Server.aggStep m) = lis.foldl Server.aggStep m from rfl,
        server_titleAt_foldl]
      cases htm : Server.titleAt m k
      · cases hfo : lis.find? (fun li => keyOfChecked li == some k) <;>
          simp [htm, hli, hfo]
      · simp [htm, hli]

theorem TwoWindow.titleAt_orders_foldl (os : List Order) (m : TwoWindow.AggMap) (k : String) :
    TwoWindow.titleAt
        (os.foldl (fun m o => (o.line_items.getD []).foldl TwoWindow.aggStep m) m) k
      = match TwoWindow.titleAt m k with
        | some t => some t
        | none => ((os.flatMap (fun o => o.line_items.getD [])).find?
            (fun li => keyOfJs li == k)).map titleOf := by
  induction os generalizing m with
  | nil => cases htm : TwoWindow.titleAt m k <;> simp [htm]
  | cons o rest ih =>
    rw [List.foldl_cons, ih, TwoWindow.titleAt_foldl, List.flatMap_cons, List.find?_append]
    cases htm : TwoWindow.titleAt m k
    · cases hfo : (o.line_items.getD []).find? (fun li => keyOfJs li == k) <;>
        simp [htm, hfo]
    · simp [htm]

theorem TwoWindow.titleAt_seasonal_foldl (os : List Order) (cm : ℕ)
    (m : TwoWindow.AggMap) (k : String) :
    TwoWindow.titleAt
        (os.foldl (fun m o =>
          if o.created_month = cm then (o.line_items.getD []).foldl TwoWindow.aggStep m
          else m) m) k
      = match TwoWindow.titleAt m k with
        | some t => some t
        | none => (((os.filter (fun o => o.created_month == cm)).flatMap
            (fun o => o.line_items.getD [])).find? (fun li => keyOfJs li == k)).map titleOf := by
  induction os generalizing m with
  | nil => cases htm : TwoWindow.titleAt m k <;> simp [htm]
  | cons o rest ih =>
    rw [List.foldl_cons]
    by_cases h : o.created_month = cm
    · rw [if_pos h, ih, TwoWindow.titleAt_foldl]
      rw [show List.filter (fun o => o.created_month == cm) (o :: rest)
          = o :: List.filter (fun o => o.created_month == cm) rest from by simp [h],
        List.flatMap_cons, List.find?_append]
      cases htm : TwoWindow.titleAt m k
      · cases hfo : (o.line_items.getD []).find? (fun li => keyOfJs li == k) <;>
          simp [htm, hfo]
      · simp [htm]
    · rw [if_neg h, ih,
        show List.filter (fun o => o.created_month == cm) (o :: rest)
          = List.filter (fun o => o.created_month == cm) rest from by simp [h]]

/-- Modelled from the spec: "first non-empty title seen for that key" —
the first non-empty value of the title expression among the line items
mapping to the key. -/
def specFirstNonEmptyTitle (orders : List Order) (k : String) : Option String :=
  (((orders.flatMap (fun o => o.line_items.getD [])).filter
      (fun li => keyOfChecked li == some k)).map titleOf).find? (fun t => t != "")

/-- C9 counterexample: for a key whose first line item has no name and no
title, the aggregate entry's title is the empty string and is never
replaced by the later non-empty title "Widget" — the spec's "first
non-empty title seen" rule does not hold. -/
theorem c9_title_counterexample :
    Server.titleAt (Server.aggregateLineItems
        [⟨0, some [⟨some 5, none, none, none, some 1⟩,
                   ⟨some 5, none, some "Widget", none, some 2⟩]⟩]) "5"
      = some ""
    ∧ specFirstNonEmptyTitle
        [⟨0, some [⟨some 5, none, none, none, some 1⟩,
                   ⟨some 5, none, some "Widget", none, some 2⟩]⟩] "5"
      = some "Widget"
    ∧ ("" : String) ≠ "Widget" := by
  refine ⟨by decide, by decide, by decide⟩

/-- C9 amended: in both aggregators the display title of an entry is the
title expression (`li.name || li.title || ""`, possibly empty) of the
*first* line item seen for that key — in stream order for
`aggregateLineItems`, and in recent-then-matching-seasonal stream order
for `aggregateLineItemsWithSeasonality` — and is never overwritten. -/
theorem c9_title_first_amended :
    (∀ (orders : List Order) (k : String),
      Server.titleAt (Server.aggregateLineItems orders) k
        = ((orders.flatMap (fun o => o.line_items.getD [])).find?
            (fun li => keyOfChecked li == some k)).map titleOf)
    ∧ (∀ (recent seasonal : List Order) (cm : ℕ) (k : String),
      TwoWindow.titleAt (TwoWindow.aggregateLineItemsWithSeasonality recent seasonal cm) k
        = (((recent.flatMap (fun o => o.line_items.getD []))
            ++ (seasonal.filter (fun o => o.created_month == cm)).flatMap
                (fun o => o.line_items.getD [])).find?
            (fun li => keyOfJs li == k)).map titleOf) := by
  constructor
  · intro orders k
    unfold Server.aggregateLineItems
    rw [server_titleAt_orders_foldl]
    rfl
  · intro recent seasonal cm k
    unfold TwoWindow.aggregateLineItemsWithSeasonality
    rw [TwoWindow.titleAt_seasonal_foldl, TwoWindow.titleAt_orders_foldl, List.find?_append]
    cases hfr : (recent.flatMap (fun o => o.line_items.getD [])).find?
        (fun li => keyOfJs li == k) <;> simp [hfr, TwoWindow.titleAt]

/-- C8 counterexample: the two-window aggregator does not skip a line item
whose variant and product identifiers are both absent — it records its
quantity under the stringified key `"undefined"`. -/
theorem c8_absent_id_counterexample :
    TwoWindow.aggregateLineItemsWithSeasonality
        [⟨0, some [⟨none, none, some "X", none, some 5⟩]⟩] [] 0
      = [("undefined", ⟨"X", 5⟩)] := by
  decide

/-- C8 amended: `src/server.js`'s aggregation step skips a line item with
both identifiers absent (it changes nothing), while the two-window
aggregation step adds the item's quantity to the entry keyed by the
string `"undefined"`. -/
theorem c8_absent_id_amended :
    (∀ (m : Server.AggMap) (li : LineItem),
      li.variant_id = none → li.product_id = none → Server.aggStep m li = m)
    ∧ (∀ (m : TwoWindow.AggMap) (li : LineItem),
      li.variant_id = none → li.product_id = none →
        TwoWindow.totalAt (TwoWindow.aggStep m li) "undefined"
          = TwoWindow.totalAt m "undefined" + qtyOf li) := by
  constructor
  · intro m li h1 h2
    simp [Server.aggStep, keyOfChecked, jsOrN, truthyN, h1, h2]
  · intro m li h1 h2
    have hk : keyOfJs li = "undefined" := by simp [keyOfJs, jsOrN, truthyN, h1, h2]
    rw [show TwoWindow.aggStep m li = TwoWindow.upsert m (keyOfJs li) li from rfl, hk,
      TwoWindow.totalAt_upsert, if_pos rfl]

/-- C8 amended witness: concrete check on the empty map. -/
theorem c8_absent_id_amended_witness :
    Server.aggStep [] ⟨none, none, some "X", none, some 5⟩ = []
    ∧ TwoWindow.totalAt (TwoWindow.aggStep [] ⟨none, none, some "X", none, some 5⟩)
        "undefined"
      = TwoWindow.totalAt [] "undefined" + qtyOf ⟨none, none, some "X", none, some 5⟩ :=
  ⟨c8_absent_id_amended.1 [] _ rfl rfl, c8_absent_id_amended.2 [] _ rfl rfl⟩

/-- C7: when the order fetch fails, the `/forecast` response carries the
upstream status whenever one is attached (and non-zero, as HTTP statuses
are), and falls back to 500 exactly when no status is attached; in
particular a non-success `shopifyFetch` response propagates its status. -/
theorem c7_upstream_status (cid email : Option String)
    (hid : truthyS cid = true ∨ truthyS email = true) :
    (∀ (msg : String) (s : ℕ), 0 < s →
      (forecastRoute cid email (.error ⟨msg, some s⟩)).1 = s)
    ∧ (∀ msg : String, (forecastRoute cid email (.error ⟨msg, none⟩)).1 = 500)
    ∧ (∀ (s : ℕ) (orders : List Order), 0 < s →
      (forecastRoute cid email (shopifyFetchOrders false s orders)).1 = s) := by
  have hcond : ¬ (¬ truthyS cid = true ∧ ¬ truthyS email = true) := by tauto
  refine ⟨?_, ?_, ?_⟩
  · intro msg s hs
    unfold forecastRoute
    rw [if_neg hcond]
    simp [jsNatOr, hs.ne']
  · intro msg
    unfold forecastRoute
    rw [if_neg hcond]
    rfl
  · intro s orders hs
    unfold forecastRoute shopifyFetchOrders
    rw [if_neg hcond]
    simp [jsNatOr, hs.ne']

/-- C7 witness: an upstream 401 reaches the caller as 401, not 500. -/
theorem c7_upstream_status_witness :
    (forecastRoute (some "gid") none (.error ⟨"Shopify API error: 401", some 401⟩)).1 = 401 :=
  (c7_upstream_status (some "gid") none (Or.inl (by decide))).1
    "Shopify API error: 401" 401 (by decide)

end ShopifyForecast
